import Mathlib

/-!
Shallow embedding of the ai-mentor server (src/index.js): the mentor
orchestration pipeline (Gemini guidance client, Zoo CAD mesh client, mock
catalog fallback) and the sandboxed execution engine, together with proofs
about the frozen claims.  JavaScript strings are modelled as Lean strings,
JavaScript `undefined`/`null` as `Option`, and thrown JavaScript exceptions
as `Except` values.
-/

set_option autoImplicit false

/-- ASCII lower-casing of one character, the effect of JavaScript
`toLowerCase` and of the regex `i` flag on the ASCII letters that occur in
the markers and keywords of src/index.js. -/
def asciiLower (c : Char) : Char :=
  if 65 ≤ c.toNat ∧ c.toNat ≤ 90 then Char.ofNat (c.toNat + 32) else c

/-- Lower-case a character list. -/
def lowerList (l : List Char) : List Char := l.map asciiLower

/-- JavaScript whitespace class: the characters matched by the regex class
`\s` (and removed by `String.prototype.trim`). -/
def jsWs (c : Char) : Bool :=
  let n := c.toNat
  n = 32 || n = 9 || n = 10 || n = 11 || n = 12 || n = 13 ||
  n = 160 || n = 5760 || (8192 ≤ n && n ≤ 8202) || n = 8232 || n = 8233 ||
  n = 8239 || n = 8287 || n = 12288 || n = 65279

/-- JavaScript regex `.` (dotAll off): every character except the four line
terminators. -/
def jsDot (c : Char) : Bool :=
  let n := c.toNat
  !(n = 10 || n = 13 || n = 8232 || n = 8233)

/-- JavaScript `String.prototype.trim`: drop whitespace from both ends. -/
def jsTrim (l : List Char) : List Char :=
  ((l.dropWhile jsWs).reverse.dropWhile jsWs).reverse

/-- Does `l` start with the token `t`? -/
def startsWithTok : List Char → List Char → Bool
  | _, [] => true
  | [], _ :: _ => false
  | c :: cs, t :: ts => c = t && startsWithTok cs ts

/-- JavaScript `String.prototype.includes`: does `l` contain `t` as a
contiguous substring? -/
def containsTok : List Char → List Char → Bool
  | [], tok => startsWithTok [] tok
  | c :: cs, tok => startsWithTok (c :: cs) tok || containsTok cs tok

/-- A triangle mesh as emitted to the client: flat vertex buffer (three
floats per point, modelled over ℚ) and flat index buffer (three indices per
triangle).  Mirrors the `{ vertices, indices }` objects of src/index.js. -/
structure Mesh where
  vertices : List ℚ
  indices : List ℕ
deriving Repr, DecidableEq

/-- The Mesh invariant of the data model: the index buffer length is a
multiple of 3 and every index addresses an existing point. -/
def meshOk (m : Mesh) : Prop :=
  m.indices.length % 3 = 0 ∧ ∀ i ∈ m.indices, i < m.vertices.length / 3

instance (m : Mesh) : Decidable (meshOk m) := by
  unfold meshOk; infer_instance

/-- The `camera` entry of the mock catalog.  In src/index.js lines 173-176
both arrays hold only comments, i.e. they are empty arrays. -/
def cameraMesh : Mesh := ⟨[], []⟩

/-- The `transistor` entry of the mock catalog (src/index.js lines 177-180),
likewise a pair of empty arrays. -/
def transistorMesh : Mesh := ⟨[], []⟩

/-- The default quad returned when no catalog keyword matches
(src/index.js lines 188-191). -/
def defaultQuadMesh : Mesh :=
  ⟨[-1, -1, -1, 1, -1, -1, 1, 1, -1, -1, 1, -1], [0, 1, 2, 0, 2, 3]⟩

/-- The keyword lookup inside `mockCadData` (src/index.js lines 170-192)
for the case that `prompt` is an actual string: `Object.keys(models).find`
visits `camera` before `transistor` and tests
`prompt.toLowerCase().includes(k)`. -/
def mockLookup (prompt : String) : Mesh :=
  let low := lowerList prompt.data
  if containsTok low "camera".data then cameraMesh
  else if containsTok low "transistor".data then transistorMesh
  else defaultQuadMesh

/-- A thrown JavaScript exception (only its kind matters to the model). -/
inductive JsError
  | typeError
  | generic
deriving Repr, DecidableEq

/-- `mockCadData` as defined at src/index.js line 170: its parameter is
`prompt`, and the body immediately evaluates `prompt.toLowerCase()`.  When
the caller passes no argument, `prompt` is `undefined` and that member
access throws a TypeError; when it is a string the keyword lookup runs. -/
def mockCadData : Option String → Except JsError Mesh
  | none => .error .typeError
  | some p => .ok (mockLookup p)

/-- The payload shape of the Zoo CAD backend reply used by `callZooCAD`:
`response.data?.model?.mesh?.vertices` and `...mesh.faces`.  A missing
level of the optional chain is collapsed into `vertices = none`, since the
chain then yields `undefined` exactly as a missing `vertices` field does;
`faces` is read without optional chaining only after `vertices` was found
present. -/
structure ZooData where
  vertices : Option (List (List ℚ))
  faces : Option (List (List ℕ))
deriving Repr, DecidableEq

/-- Outcome of the axios POST inside `callZooCAD`: the call either throws
(network error, timeout, non-2xx) or delivers a payload. -/
inductive ZooCallResult
  | failure
  | success (data : ZooData)
deriving Repr, DecidableEq

/-- `callZooCAD` (src/index.js lines 50-83).  The `try` body throws when
the vertex chain is undefined (`Invalid CAD response format`) or when
`faces` is undefined (`faces.flat()` on undefined); every throw is caught
and turned into `null`, modelled as `none`.  A present vertex array —
even an empty one, since an empty JavaScript array is truthy — is passed
through, with both arrays flattened. -/
def callZooCAD : ZooCallResult → Option Mesh
  | .failure => none
  | .success d =>
    match d.vertices with
    | none => none
    | some vs =>
      match d.faces with
      | none => none
      | some fs => some ⟨vs.flatten, fs.flatten⟩

/-- The marker scanned for by `callGemini`, lower-cased: the regexes
`/CAD_PROMPT:\s*(.+)/i` and `/CAD_PROMPT:.+/i` both start by matching this
11-character literal case-insensitively. -/
def markerChars : List Char := "cad_prompt:".data

/-- Does the regex literal `CAD_PROMPT:` (with the `i` flag) match at the
head of `l`? -/
def markerAtL (l : List Char) : Bool :=
  decide (lowerList (l.take 11) = markerChars)

/-- The capture of `\s*(.+)` against the characters `cs` that follow the
marker, with the greedy backtracking of the JavaScript engine: `\s*` first
consumes the maximal whitespace run `w`; if a character is left, `(.+)`
captures from there to the next line terminator; otherwise `\s*` backtracks
until the remaining head is a non-terminator, so the capture is the last
non-terminator whitespace character of `w`; if none exists the match fails
at this position. -/
def tailCapture (cs : List Char) : Option (List Char) :=
  let w := cs.takeWhile jsWs
  match cs.dropWhile jsWs with
  | r :: rs => some ((r :: rs).takeWhile jsDot)
  | [] =>
    match (w.filter jsDot).getLast? with
    | some c => some [c]
    | none => none

/-- `response.match(/CAD_PROMPT:\s*(.+)/i)` (src/index.js line 99): scan
left to right; at the first position where the whole pattern matches,
return the capture group. -/
def findCad : List Char → Option (List Char)
  | [] => none
  | c :: cs =>
    if markerAtL (c :: cs) then
      match tailCapture ((c :: cs).drop 11) with
      | some cap => some cap
      | none => findCad cs
    else findCad cs

/-- `response.replace(/CAD_PROMPT:.+/i, '')` (src/index.js line 102): scan
left to right; at the first position where the marker is followed by at
least one non-terminator character, delete the marker and the following
run of non-terminator characters; if no position matches, return the text
unchanged. -/
def findReplace : List Char → List Char
  | [] => []
  | c :: cs =>
    if markerAtL (c :: cs) then
      match (c :: cs).drop 11 with
      | [] => c :: findReplace cs
      | d :: ds =>
        if jsDot d then ds.dropWhile jsDot
        else c :: findReplace cs
    else c :: findReplace cs

/-- Result of `callGemini`: the explanation text and the CAD directive. -/
structure GuidanceResult where
  guidance : String
  cadPrompt : String
deriving Repr, DecidableEq

/-- `callGemini` (src/index.js lines 87-112).  The downstream Gemini chat
call either throws / fails (`none`) — and the catch branch returns the
fixed degraded result — or yields the raw response text, which is parsed
with the two regexes.  The capture group of the match is never the empty
string, so the `||` fallback on `cadSection?.[1]` fires exactly when the
match failed. -/
def callGemini (query : String) (downstream : Option String) : GuidanceResult :=
  match downstream with
  | none =>
    { guidance := "I\x27m having trouble visualizing that. Let me try again..."
      cadPrompt := "Educational model for: " ++ query }
  | some response =>
    { guidance := String.mk (jsTrim (findReplace response.data))
      cadPrompt :=
        match findCad response.data with
        | some cap => String.mk cap
        | none => "3D model showing: " ++ query }

/-- The `mentor_response` payload. -/
structure MentorResponse where
  guidance : String
  modelData : Mesh
deriving Repr, DecidableEq

/-- The `mentor_query` handler (src/index.js lines 126-143).  Inputs: the
query text, the `USE_REAL_CAD === 'true'` switch, the Gemini outcome and
the Zoo call outcome.  The `try` body computes `cadData` (live call, or
`mockCadData()` with no argument in mock mode) and then
`cadData || mockCadData()`; any throw reaches the `catch`, whose own emit
argument again evaluates `mockCadData()`.  A throw inside the `catch` is
uncaught: the handler rejects and nothing is emitted, modelled as `none`. -/
def mentorQueryHandler (query : String) (useRealCad : Bool)
    (gemini : Option String) (zoo : ZooCallResult) : Option MentorResponse :=
  let g := callGemini query gemini
  let body : Except JsError MentorResponse := do
    let cadData : Option Mesh ←
      if useRealCad then Except.ok (callZooCAD zoo)
      else (mockCadData none).map some
    let modelData : Mesh ←
      match cadData with
      | some m => Except.ok m
      | none => mockCadData none
    Except.ok ⟨g.guidance, modelData⟩
  match body with
  | .ok r => some r
  | .error _ =>
    match mockCadData none with
    | .ok m => some ⟨"System error. Please try again later.", m⟩
    | .error _ => none

/-- The static denylist test of the `execute_code` handler
(src/index.js line 147): `/(process|require|import)/gi.test(code)`, i.e.
a case-insensitive substring check for any of the three tokens. -/
def containsRestricted (code : String) : Bool :=
  let low := lowerList code.data
  containsTok low "process".data ||
  containsTok low "require".data ||
  containsTok low "import".data

/-- Environment of the shared `codeVm` sandbox: the global bindings that
scripts have created in it.  src/index.js lines 115-120 construct a single
module-level `VM` whose sandbox object persists across `run` calls. -/
def VmEnv : Type := List (String × ℕ)

/-- The `execute_code` handler (src/index.js lines 145-162), with the
evaluation of the accepted source by the shared VM abstracted as `run`:
when the denylist matches, the handler throws `Restricted keywords
detected` before any evaluation, the catch turns it into the
`Execution Error: ...` result string, and the VM environment is untouched;
otherwise the source is evaluated against the current environment. -/
def executeCodeHandler (code : String) (run : VmEnv → VmEnv × String)
    (env : VmEnv) : VmEnv × String :=
  if containsRestricted code then
    (env, "Execution Error: Restricted keywords detected")
  else run env

/-- Split a character list at the first occurrence of the token ` = `,
returning the parts before and after it, or `none` when the token does not
occur. -/
def splitOnAssign : List Char → Option (List Char × List Char)
  | [] => none
  | c :: cs =>
    if startsWithTok (c :: cs) " = ".data then some ([], (c :: cs).drop 3)
    else
      match splitOnAssign cs with
      | some (l, r) => some (c :: l, r)
      | none => none

/-- Parse a non-empty run of decimal digits. -/
def parseNatChars (l : List Char) : Option ℕ :=
  if l ≠ [] ∧ l.all Char.isDigit then
    some (l.foldl (fun acc c => 10 * acc + (c.toNat - 48)) 0)
  else none

/-- Evaluation of a source text by the shared `codeVm`, for the fragment
of JavaScript needed by the claims: `name = literal` creates or updates a
binding on the persistent sandbox and evaluates to the literal, and a bare
`name` reads the binding, throwing a ReferenceError (caught by the handler
and rendered as an `Execution Error: ...` string) when it is absent.  The
environment returned is the sandbox state left behind for the next `run`
call on the same VM. -/
def microRun (code : String) (env : VmEnv) : VmEnv × String :=
  match splitOnAssign code.data with
  | some (lhs, rhs) =>
    match parseNatChars rhs with
    | some v => ((String.mk lhs, v) :: env, toString v)
    | none => (env, "Execution Error: Invalid assignment")
  | none =>
    match List.lookup (String.mk code.data) env with
    | some v => (env, toString v)
    | none => (env, "Execution Error: " ++ code ++ " is not defined")

/-- No position of `l` matches the `CAD_PROMPT:` marker (case-insensitive):
the raw text does not contain the marker at all. -/
def noMarkerAnywhere : List Char → Bool
  | [] => true
  | c :: cs => !markerAtL (c :: cs) && noMarkerAnywhere cs

/-- No position that starts strictly inside `pre` matches the marker in
`pre ++ rest`: the first marker occurrence of `pre ++ rest` is not inside
`pre` (occurrences straddling the boundary included). -/
def cleanPre : List Char → List Char → Bool
  | [], _ => true
  | c :: cs, rest => !markerAtL ((c :: cs) ++ rest) && cleanPre cs rest

/-!
## Claims
-/

/-- A character rejected by the regex dot class is a line terminator and
hence JavaScript whitespace. -/
theorem jsWs_of_not_jsDot (c : Char) (h : jsDot c = false) : jsWs c = true := by
  unfold jsDot at h
  unfold jsWs
  simp only [Bool.not_eq_false', Bool.or_eq_true, decide_eq_true_eq] at h
  simp only [Bool.or_eq_true, Bool.and_eq_true, decide_eq_true_eq]
  rcases h with ((h | h) | h) | h <;> omega

/-- When the text holds no marker, the first regex finds no match. -/
theorem findCad_of_noMarker (l : List Char) (h : noMarkerAnywhere l = true) :
    findCad l = none := by
  induction l with
  | nil => rfl
  | cons c cs ih =>
    simp only [noMarkerAnywhere, Bool.and_eq_true, Bool.not_eq_true'] at h
    simp [findCad, h.1, ih h.2]

/-- Scanning for the first match skips a marker-free region. -/
theorem findCad_append_clean (pre rest : List Char)
    (h : cleanPre pre rest = true) :
    findCad (pre ++ rest) = findCad rest := by
  induction pre with
  | nil => rfl
  | cons c cs ih =>
    simp only [cleanPre, Bool.and_eq_true, Bool.not_eq_true'] at h
    rw [List.cons_append, findCad]
    rw [List.cons_append] at h
    simp [h.1, ih h.2]

/-- Replacement likewise leaves a marker-free region untouched and
continues behind it. -/
theorem findReplace_append_clean (pre rest : List Char)
    (h : cleanPre pre rest = true) :
    findReplace (pre ++ rest) = pre ++ findReplace rest := by
  induction pre with
  | nil => rfl
  | cons c cs ih =>
    simp only [cleanPre, Bool.and_eq_true, Bool.not_eq_true'] at h
    rw [List.cons_append, findReplace]
    rw [List.cons_append] at h
    simp [h.1, ih h.2]

/-- A literal marker occurrence matches the marker test. -/
theorem markerAtL_marker (mk rest : List Char)
    (hmk : lowerList mk = markerChars) : markerAtL (mk ++ rest) = true := by
  have hlen : mk.length = 11 := by
    have h1 := congrArg List.length hmk
    simpa [lowerList, markerChars] using h1
  unfold markerAtL
  rw [List.take_left' hlen]
  exact decide_eq_true hmk

/-- When the characters after the marker hold a non-whitespace character
before the first line terminator, the capture of `\s*(.+)` is the
remainder after skipping leading whitespace, cut at the next
terminator. -/
theorem tailCapture_of_nonWs (cs : List Char)
    (h : (cs.takeWhile jsDot).any (fun c => !jsWs c) = true) :
    tailCapture cs = some ((cs.dropWhile jsWs).takeWhile jsDot) := by
  have hne : cs.dropWhile jsWs ≠ [] := by
    intro hnil
    rw [List.dropWhile_eq_nil_iff] at hnil
    simp only [List.any_eq_true, Bool.not_eq_true'] at h
    obtain ⟨x, hx, hxw⟩ := h
    have hxcs : x ∈ cs := List.takeWhile_subset _ hx
    have := hnil x hxcs
    rw [hxw] at this
    exact Bool.false_ne_true this
  obtain ⟨r, rs, hr⟩ : ∃ r rs, cs.dropWhile jsWs = r :: rs := by
    cases hd : cs.dropWhile jsWs with
    | nil => exact absurd hd hne
    | cons r rs => exact ⟨r, rs, rfl⟩
  simp only [tailCapture, hr]

/-- Commuting the whitespace skip with the cut at the first terminator,
valid when the first line holds a non-whitespace character. -/
theorem dropWs_takeDot_comm (cs : List Char)
    (h : (cs.takeWhile jsDot).any (fun c => !jsWs c) = true) :
    (cs.dropWhile jsWs).takeWhile jsDot = (cs.takeWhile jsDot).dropWhile jsWs := by
  induction cs with
  | nil => simp at h
  | cons c cs ih =>
    by_cases hdot : jsDot c = true
    · rw [List.takeWhile_cons_of_pos hdot] at h ⊢
      by_cases hws : jsWs c = true
      · rw [List.dropWhile_cons_of_pos hws, List.dropWhile_cons_of_pos hws]
        apply ih
        simpa [hws] using h
      · rw [List.dropWhile_cons_of_neg hws, List.dropWhile_cons_of_neg hws,
            List.takeWhile_cons_of_pos hdot]
    · rw [List.takeWhile_cons_of_neg hdot] at h
      simp at h

/-- At a marker occurrence whose tail capture succeeds, the scan of the
first regex stops there and returns that capture. -/
theorem findCad_marker (mk cs cap : List Char)
    (hmk : lowerList mk = markerChars) (hcap : tailCapture cs = some cap) :
    findCad (mk ++ cs) = some cap := by
  have hlen : mk.length = 11 := by
    have h1 := congrArg List.length hmk
    simpa [lowerList, markerChars] using h1
  have hmark := markerAtL_marker mk cs hmk
  cases mk with
  | nil => simp at hlen
  | cons m ms =>
    rw [List.cons_append, findCad, ← List.cons_append, hmark]
    simp only [if_true]
    rw [List.drop_left' hlen, hcap]

/-- At a marker occurrence followed directly by a non-terminator, the
replace regex deletes the marker and the rest of its line. -/
theorem findReplace_marker (mk : List Char) (d : Char) (ds : List Char)
    (hmk : lowerList mk = markerChars) (hd : jsDot d = true) :
    findReplace (mk ++ d :: ds) = ds.dropWhile jsDot := by
  have hlen : mk.length = 11 := by
    have h1 := congrArg List.length hmk
    simpa [lowerList, markerChars] using h1
  have hmark := markerAtL_marker mk (d :: ds) hmk
  cases mk with
  | nil => simp at hlen
  | cons m ms =>
    rw [List.cons_append, findReplace, ← List.cons_append, hmark]
    simp only [if_true]
    rw [List.drop_left' hlen]
    simp [hd]

/-- C1.  The claim fails on the code: whenever the configuration switch is
not `true` (mock mesh mode), the handler evaluates `mockCadData()` with no
argument, which throws a TypeError; the catch branch evaluates
`mockCadData()` again and throws again, so no `mentor_response` is emitted
for the query — for every query, every Gemini outcome and every Zoo
outcome. -/
theorem c1_mock_mode_emits_no_response (query : String) (gemini : Option String)
    (zoo : ZooCallResult) :
    mentorQueryHandler query false gemini zoo = none := rfl

/-- C2.  The claim fails on the code: with the switch selecting live mesh
generation, a failed Zoo call yields `null`, so `cadData || mockCadData()`
evaluates `mockCadData()` with no argument and throws; the catch branch
throws the same way, and no `mentor_response` is emitted at all — the mock
catalog is never consulted for the directive. -/
theorem c2_live_failure_emits_no_response (query : String) (gemini : Option String) :
    mentorQueryHandler query true gemini ZooCallResult.failure = none := rfl

/-- C3.  The claim fails on the code: the single module-level `codeVm` is
shared by all `execute_code` requests, so a binding created by one run is
visible to the next.  Concretely, running `leaked = 7` and then running
`leaked` on the resulting engine state yields the result string `7` instead
of a ReferenceError. -/
theorem c3_variable_leaks_between_runs :
    (executeCodeHandler "leaked"
      (microRun "leaked")
      (executeCodeHandler "leaked = 7" (microRun "leaked = 7") []).1).2 = "7" := by
  decide

/-- C4.  Confirmed: when the source contains a denylisted token
(case-insensitive substring), the handler returns the
`Execution Error: Restricted keywords detected` result without invoking the
execution engine at all — the outcome is the same for every possible
evaluation function and the VM environment is unchanged. -/
theorem c4_denylist_blocks_before_execution (code : String)
    (run : VmEnv → VmEnv × String) (env : VmEnv)
    (h : containsRestricted code = true) :
    executeCodeHandler code run env =
      (env, "Execution Error: Restricted keywords detected") := by
  simp [executeCodeHandler, h]

/-- Witness for C4 at a concrete denylisted source (upper-case `PROCESS`
exercises the case-insensitive match). -/
theorem c4_denylist_witness :
    containsRestricted "const x = PROCESS.env" = true ∧
    executeCodeHandler "const x = PROCESS.env"
        (microRun "const x = PROCESS.env") [] =
      ([], "Execution Error: Restricted keywords detected") :=
  ⟨by decide,
   c4_denylist_blocks_before_execution "const x = PROCESS.env"
     (microRun "const x = PROCESS.env") [] (by decide)⟩

/-- C6 counterexample: on a downstream failure the directive is
`Educational model for: <query>`, not `3D model showing: <query>` as the
claim states. -/
theorem c6_counterexample :
    (callGemini "ohms law" none).cadPrompt = "Educational model for: ohms law" ∧
    (callGemini "ohms law" none).cadPrompt ≠ "3D model showing: ohms law" :=
  ⟨rfl, by decide⟩

/-- C6 amended: `callGemini` never propagates a downstream failure; it
returns the fixed apology as guidance and the directive
`Educational model for: ` + query, and both fields are nonempty. -/
theorem c6_degraded_result_on_failure (query : String) :
    (callGemini query none).guidance =
      "I\x27m having trouble visualizing that. Let me try again..." ∧
    (callGemini query none).cadPrompt = "Educational model for: " ++ query ∧
    (callGemini query none).guidance ≠ "" ∧
    (callGemini query none).cadPrompt ≠ "" := by
  refine ⟨rfl, rfl, ?_, ?_⟩
  · rw [show (callGemini query none).guidance =
        "I\x27m having trouble visualizing that. Let me try again..." from rfl]
    decide
  · rw [show (callGemini query none).cadPrompt =
        "Educational model for: " ++ query from rfl]
    intro h
    have hl := congrArg String.length h
    rw [String.length_append] at hl
    have h23 : "Educational model for: ".length = 23 := by decide
    have h0 : "".length = 0 := rfl
    omega

/-- C8 counterexample: a backend reply whose vertex array is present but
empty is not treated as a failure — it is passed through as a mesh with no
vertices (and here with dangling indices), contradicting the claim that a
response lacking a non-empty vertex array always becomes a Failure. -/
theorem c8_counterexample :
    callZooCAD (.success ⟨some [], some [[0, 1, 2]]⟩) =
      some ⟨[], [0, 1, 2]⟩ ∧
    callZooCAD (.success ⟨some [], some [[0, 1, 2]]⟩) ≠ none :=
  ⟨rfl, by decide⟩

/-- C8 amended: a reply with a missing vertex array (or a missing faces
array) and a failed call are all returned as the typed `none` failure —
no exception escapes `callZooCAD` — but an empty-yet-present vertex array
is passed through rather than rejected. -/
theorem c8_missing_data_is_failure (d : ZooData)
    (h : d.vertices = none ∨ d.faces = none) :
    callZooCAD (.success d) = none ∧ callZooCAD .failure = none := by
  obtain ⟨v, f⟩ := d
  refine ⟨?_, rfl⟩
  rcases h with h | h <;> simp only at h <;> subst h
  · rfl
  · cases v <;> rfl

/-- Witness for C8 at a concrete reply with a missing vertex array. -/
theorem c8_missing_data_witness :
    callZooCAD (.success ⟨none, some [[0, 1, 2]]⟩) = none :=
  (c8_missing_data_is_failure ⟨none, some [[0, 1, 2]]⟩ (Or.inl rfl)).1

/-- C9.  Confirmed: for an actual string input the mock catalog lookup
never throws and returns a mesh; an input containing `camera` in any
letter case returns the camera mesh; an input matching no keyword returns
the default quad with 12 vertex floats and 6 indices. -/
theorem c9_mock_lookup_total_and_keyword_based (p : String) :
    mockCadData (some p) = .ok (mockLookup p) ∧
    (containsTok (lowerList p.data) "camera".data = true →
      mockLookup p = cameraMesh) ∧
    (containsTok (lowerList p.data) "camera".data = false →
      containsTok (lowerList p.data) "transistor".data = false →
      mockLookup p = defaultQuadMesh ∧
      defaultQuadMesh.vertices.length = 12 ∧
      defaultQuadMesh.indices.length = 6) := by
  refine ⟨rfl, ?_, ?_⟩
  · intro h
    simp [mockLookup, h]
  · intro h1 h2
    refine ⟨?_, rfl, rfl⟩
    simp [mockLookup, h1, h2]

/-- Witness for C9: a mixed-case `camera` input and an unmatched input. -/
theorem c9_mock_lookup_witness :
    mockLookup "A CAMera lens" = cameraMesh ∧
    mockLookup "a gearbox" = defaultQuadMesh :=
  ⟨(c9_mock_lookup_total_and_keyword_based "A CAMera lens").2.1 (by decide),
   ((c9_mock_lookup_total_and_keyword_based "a gearbox").2.2
     (by decide) (by decide)).1⟩

/-- C10 counterexample: the live path performs no index validation, so a
backend reply whose faces reference missing vertices flows through
`callZooCAD` as a mesh that violates the invariant (index 5 with only one
point). -/
theorem c10_counterexample :
    callZooCAD (.success ⟨some [[0, 0, 0]], some [[0, 1, 5]]⟩) =
      some ⟨[0, 0, 0], [0, 1, 5]⟩ ∧
    ¬ meshOk ⟨[0, 0, 0], [0, 1, 5]⟩ :=
  ⟨rfl, by decide⟩

/-- C10 amended: every mesh produced by the mock catalog — the keyword
entries and the fallback default quad — satisfies the mesh invariant;
meshes from the live path are passed through unvalidated and can violate
it. -/
theorem c10_mock_meshes_satisfy_invariant (p : String) :
    meshOk (mockLookup p) := by
  have hcases : mockLookup p = cameraMesh ∨ mockLookup p = transistorMesh ∨
      mockLookup p = defaultQuadMesh := by
    unfold mockLookup
    by_cases h1 : containsTok (lowerList p.data) "camera".data = true
    · left; simp [h1]
    · by_cases h2 : containsTok (lowerList p.data) "transistor".data = true
      · right; left; simp [h1, h2]
      · right; right; simp [h1, h2]
  rcases hcases with h | h | h <;> rw [h] <;> decide

/-- C7 counterexample: the capture of `/CAD_PROMPT:\s*(.+)/i` keeps
trailing whitespace, so for the raw text `CAD_PROMPT: cube ` the extracted
directive is `cube ` while the trimmed remainder of the marker line is
`cube` — the two differ, refuting the claim as stated. -/
theorem c7_counterexample :
    (callGemini "q" (some "CAD_PROMPT: cube ")).cadPrompt = "cube " ∧
    String.mk (jsTrim " cube ".data) = "cube" ∧
    (callGemini "q" (some "CAD_PROMPT: cube ")).cadPrompt ≠
      String.mk (jsTrim " cube ".data) :=
  ⟨by decide, by decide, by decide⟩

/-- C7 amended.  Directive extraction in `callGemini`: when the raw text
holds no case-insensitive occurrence of `CAD_PROMPT:`, the directive is
`3D model showing: ` + query; when the first occurrence of the marker is
followed on its own line by at least one non-whitespace character, the
directive is the remainder of that line after the marker with leading —
but not trailing — whitespace removed, and the explanation is the raw text
with the marker and the rest of its line deleted, then trimmed. -/
theorem c7_directive_extraction (query resp : String) :
    (noMarkerAnywhere resp.data = true →
      (callGemini query (some resp)).cadPrompt = "3D model showing: " ++ query) ∧
    (∀ pre mk cs, resp.data = pre ++ mk ++ cs →
      lowerList mk = markerChars →
      cleanPre pre (mk ++ cs) = true →
      (cs.takeWhile jsDot).any (fun c => !jsWs c) = true →
      (callGemini query (some resp)).cadPrompt =
        String.mk ((cs.takeWhile jsDot).dropWhile jsWs) ∧
      (callGemini query (some resp)).guidance =
        String.mk (jsTrim (pre ++ cs.dropWhile jsDot))) := by
  have hcad : (callGemini query (some resp)).cadPrompt =
      (match findCad resp.data with
       | some cap => String.mk cap
       | none => "3D model showing: " ++ query) := rfl
  have hguid : (callGemini query (some resp)).guidance =
      String.mk (jsTrim (findReplace resp.data)) := rfl
  constructor
  · intro h
    rw [hcad, findCad_of_noMarker resp.data h]
  · intro pre mk cs hresp hmk hclean hany
    have hcapture := tailCapture_of_nonWs cs hany
    have hcsne : ∃ d ds, cs = d :: ds ∧ jsDot d = true := by
      cases hc : cs with
      | nil =>
        rw [hc] at hany
        simp at hany
      | cons d ds =>
        refine ⟨d, ds, rfl, ?_⟩
        cases hdd : jsDot d with
        | true => rfl
        | false =>
          rw [hc, List.takeWhile_cons_of_neg (by simp [hdd])] at hany
          simp at hany
    constructor
    · rw [hcad, hresp, List.append_assoc, findCad_append_clean pre _ hclean,
          findCad_marker mk cs _ hmk hcapture]
      rw [dropWs_takeDot_comm cs hany]
    · obtain ⟨d, ds, hdds, hd⟩ := hcsne
      rw [hguid, hresp, List.append_assoc, findReplace_append_clean pre _ hclean,
          hdds, findReplace_marker mk d ds hmk hd,
          ← List.dropWhile_cons_of_pos (p := jsDot) (a := d) (l := ds) hd, ← hdds]

/-- Witness for C7 at two concrete raw texts: one without the marker, one
with the marker mid-text followed by a directive line. -/
theorem c7_directive_extraction_witness :
    (callGemini "volts" (some "No marker here.")).cadPrompt =
      "3D model showing: volts" ∧
    (callGemini "q" (some "Intro.\nCAD_PROMPT: a cube\nEnd.")).cadPrompt =
      "a cube" ∧
    (callGemini "q" (some "Intro.\nCAD_PROMPT: a cube\nEnd.")).guidance =
      "Intro.\n\nEnd." := by
  refine ⟨(c7_directive_extraction "volts" "No marker here.").1 (by decide), ?_⟩
  have h := (c7_directive_extraction "q" "Intro.\nCAD_PROMPT: a cube\nEnd.").2
    "Intro.\n".data "CAD_PROMPT:".data " a cube\nEnd.".data
    (by decide) (by decide) (by decide) (by decide)
  exact ⟨h.1.trans (by decide), h.2.trans (by decide)⟩
